import Mathlib

/-!
Verification of the personal library catalog application (`src/glm5_app.py`).

The application stores book records as MongoDB documents whose fields are all
strings, loads them into a pandas DataFrame, filters them client-side, and
performs single-document CRUD keyed by the `Title` field.  We embed the
documents as association lists of string fields, the collection as a list of
stored documents (each carrying the internal `_id` as a natural number), and
each operation of the program as a Lean function translated from the source.
-/

/-- A MongoDB document as the application sees it: an ordered association list
of string-valued fields (every field the app writes is a string). -/
def Doc : Type := List (String × String)

instance : DecidableEq Doc := inferInstanceAs (DecidableEq (List (String × String)))

instance : Append Doc := inferInstanceAs (Append (List (String × String)))

instance : Membership (String × String) Doc :=
  inferInstanceAs (Membership (String × String) (List (String × String)))

/-- A document as stored in the collection: the internal `_id` (modelled as a
natural number) together with the user-visible fields. -/
structure StoredDoc where
  oid : Nat
  fields : Doc
deriving DecidableEq

/-- Field lookup in a document: the value of the first pair carrying the key,
as MongoDB match expressions and `$set` see fields. -/
def lookupField (d : Doc) (k : String) : Option String :=
  (d.find? (fun p => p.1 == k)).map (·.2)

/-- The star glyph used by the app for ratings (`'⭐'`, U+2B50). -/
def starChar : Char := '⭐'

/-- The expression `'⭐' * rating` from `new_book` (line 74) and
`updated_data` (line 135): the rating integer rendered as that many star
glyphs. -/
def toGlyphString (n : Nat) : String := String.mk (List.replicate n starChar)

/-- The expression `current_data["Rating"].count("⭐")` (line 123): the
rating integer recovered as the number of star glyphs in the stored
string. -/
def countGlyphs (s : String) : Nat := s.data.count starChar

/-! Add-book form (lines 56-81) -/

/-- The sidebar form state: title, author, purchased-at, the read checkbox,
the rating slider (whose options are the integers 1..5), and notes. -/
structure NewBookForm where
  title : String
  author : String
  purchased : String
  read : Bool
  rating : Nat
  notes : String

/-- The `new_book` dict built on submit (lines 69-76): checkbox mapped to
`"Yes"`/`"No"`, rating mapped to the star-glyph string. -/
def new_book (f : NewBookForm) : Doc :=
  [("Title", f.title),
   ("Author", f.author),
   ("Purchased", f.purchased),
   ("Read", if f.read then "Yes" else "No"),
   ("Rating", toGlyphString f.rating),
   ("Notes", f.notes)]

/-- Function `save_book` (lines 30-32): `insert_one` appends one new document to the
collection, with a fresh internal `_id`. -/
def save_book (coll : List StoredDoc) (nid : Nat) (d : Doc) : List StoredDoc :=
  coll ++ [⟨nid, d⟩]

/-- Outcome of a form submission as surfaced to the user. -/
inductive AddOutcome where
  | success
  | validationError
deriving DecidableEq

/-- The submit handler (lines 68-81): `if submitted and title:` saves the
book (Python string truthiness: any non-empty title passes), and
`elif submitted and not title:` shows the "Title is required." error.
Returns the resulting collection and the outcome. -/
def book_form_submit (coll : List StoredDoc) (nid : Nat) (f : NewBookForm) :
    List StoredDoc × AddOutcome :=
  if f.title ≠ "" then (save_book coll nid (new_book f), .success)
  else (coll, .validationError)

/-! Database connection (lines 10-20) -/

/-- The URI resolution of `get_database` (lines 10-20): try
`st.secrets["MONGO_URI"]`; on any failure fall back to
`os.environ.get("MONGO_URI", "mongodb://localhost:27017")`.  The secret
store and the environment are modelled as string maps. -/
def get_database_uri (secrets env : Doc) : String :=
  match lookupField secrets "MONGO_URI" with
  | some uri => uri
  | none => (lookupField env "MONGO_URI").getD "mongodb://localhost:27017"

/-! Record store: delete and update (lines 34-40) -/

/-- Function `delete_book` (lines 34-36): `delete_one({"Title": title})` removes the
first document whose `Title` field equals `title`; if none matches the
collection is unchanged. -/
def delete_book : List StoredDoc → String → List StoredDoc
  | [], _ => []
  | d :: ds, title =>
    if lookupField d.fields "Title" == some title then ds
    else d :: delete_book ds title

/-- MongoDB `$set` of a single field: replaces the value of an existing
field in place, or appends the field if absent. -/
def setField : Doc → String → String → Doc
  | [], k, v => [(k, v)]
  | (k', v') :: rest, k, v =>
    if k' == k then (k, v) :: rest else (k', v') :: setField rest k v

/-- MongoDB `{"$set": upd}` applied to one document: every field of `upd`
is set, all other fields are left untouched. -/
def applySet (d : Doc) (upd : Doc) : Doc :=
  upd.foldl (fun acc p => setField acc p.1 p.2) d

/-- Function `update_book` (lines 38-40): `update_one({"Title": old_title},
{"$set": new_data})` applies the `$set` merge to the first document whose
`Title` equals `old_title`; if none matches the collection is unchanged. -/
def update_book : List StoredDoc → String → Doc → List StoredDoc
  | [], _, _ => []
  | d :: ds, title, upd =>
    if lookupField d.fields "Title" == some title then
      { d with fields := applySet d.fields upd } :: ds
    else d :: update_book ds title upd

/-- The `updated_data` dict built by the edit panel (lines 131-137): same
field derivation as `new_book`, but without the `Title` key. -/
structure EditForm where
  author : String
  purchased : String
  read : Bool
  rating : Nat
  notes : String

/-- The `updated_data` dict (lines 131-137). -/
def updated_data (f : EditForm) : Doc :=
  [("Author", f.author),
   ("Purchased", f.purchased),
   ("Read", if f.read then "Yes" else "No"),
   ("Rating", toGlyphString f.rating),
   ("Notes", f.notes)]

/-! Loading data (lines 23-28) -/

/-- The canonical column set of the catalog. -/
def bookFields : List String :=
  ["Title", "Author", "Purchased", "Read", "Rating", "Notes"]

/-- A pandas DataFrame over string-valued documents: its column labels and
its rows. -/
structure DataFrame where
  columns : List String
  rows : List Doc
deriving DecidableEq

/-- Key-insertion step of pandas column inference: append the key if it is
not already a column. -/
def insertKey (acc : List String) (k : String) : List String :=
  if acc.contains k then acc else acc ++ [k]

/-- Column inference of `pd.DataFrame(data)` over a list of dicts: the keys
of all dicts in first-seen order. -/
def columnsOf (data : List Doc) : List String :=
  data.foldl (fun acc d => (d.map Prod.fst).foldl insertKey acc) []

/-- Function `load_data` (lines 23-28): `collection.find(\x7b\x7d, \x7b'_id': 0\x7d)`
fetches every document excluding the internal `_id`; an empty result yields
an empty DataFrame with the canonical columns, otherwise `pd.DataFrame(data)`
carries the documents as rows with their field names as columns. -/
def load_data (coll : List StoredDoc) : DataFrame :=
  let data := coll.map (·.fields)
  if data.isEmpty then { columns := bookFields, rows := [] }
  else { columns := columnsOf data, rows := data }

/-! Client-side filtering (lines 84-91).

The mask is
`row.astype(str).str.lower().str.contains(search_term.lower()).any()`.
Every stored value is already a string, so `astype(str)` is the identity.
Pandas `Series.str.contains(pat)` defaults to `regex=True`, i.e. it runs
`re.search(pat, value)`.  We embed the fragment of Python's regex language
consisting of literal characters and the `'.'` metacharacter (match any
character); the embedding is faithful for patterns that use no other
metacharacter, and every theorem below stays inside that fragment. -/

/-- One token of the embedded regex fragment: a literal character, or `'.'`
(match any character). -/
inductive RTok where
  | lit : Char → RTok
  | dot : RTok
deriving DecidableEq

/-- The characters Python's regex language treats specially. -/
def metachars : List Char :=
  ['.', '^', '$', '*', '+', '?', '\x7b', '\x7d', '[', ']', '\\', '|', '(', ')']

/-- Compile a pattern of the embedded fragment: `'.'` becomes the
any-character token, every other character a literal. -/
def tokenize (pat : String) : List RTok :=
  pat.data.map (fun c => if c = '.' then RTok.dot else RTok.lit c)

/-- Whether one regex token matches one character. -/
def tokMatch : RTok → Char → Bool
  | RTok.lit c, d => c == d
  | RTok.dot, _ => true

/-- Whether the token list matches a prefix of the character list. -/
def matchHere : List RTok → List Char → Bool
  | [], _ => true
  | _ :: _, [] => false
  | t :: ts, c :: cs => tokMatch t c && matchHere ts cs

/-- Python `re.search` on the embedded fragment: the token list matches at
some position of the character list. -/
def reSearch (ts : List RTok) : List Char → Bool
  | [] => matchHere ts []
  | c :: cs => matchHere ts (c :: cs) || reSearch ts cs

/-- Python `str.lower()`: lowercase every character. -/
def pyLower (s : String) : String := String.mk (s.data.map Char.toLower)

/-- Pandas `Series.str.contains(pat)` on one value, on the embedded regex
fragment: `re.search(pat, value)`. -/
def strContainsPat (value pat : String) : Bool :=
  reSearch (tokenize pat) value.data

/-- The `mask` predicate on one row (line 88):
`row.astype(str).str.lower().str.contains(search_term.lower()).any()`. -/
def mask (term : String) (row : Doc) : Bool :=
  row.any (fun p => strContainsPat (pyLower p.2) (pyLower term))

/-- The displayed rows (lines 87-91): `if search_term:` filter by the mask,
`else:` the full DataFrame (Python truthiness: the branch is taken iff the
term is non-empty). -/
def display_df (df : List Doc) (term : String) : List Doc :=
  if term ≠ "" then df.filter (mask term) else df

/-- Modelled from the spec words of the filter contract, for comparison:
literal (non-regex) substring containment of `needle` in `hay`. -/
def specLiteralContains : List Char → List Char → Bool
  | needle, [] => needle.isEmpty
  | needle, c :: cs => needle.isPrefixOf (c :: cs) || specLiteralContains needle cs

/-- A string of the embedded pattern fragment with no metacharacter at all:
such a pattern is matched purely literally. -/
def noMetachars (s : String) : Bool :=
  s.data.all (fun c => !(metachars.contains c))

/-! Concrete documents and forms used to instantiate the theorems. -/

/-- A form submission whose title is a single space (whitespace-only but
non-empty). -/
def wsForm : NewBookForm :=
  { title := " ", author := "", purchased := "", read := false,
    rating := 3, notes := "" }

/-- A well-formed form submission. -/
def duneForm : NewBookForm :=
  { title := "Dune", author := "Frank Herbert", purchased := "web",
    read := true, rating := 4, notes := "" }

/-- A concrete edit-panel form. -/
def rereadForm : EditForm :=
  { author := "Frank Herbert", purchased := "web", read := true,
    rating := 4, notes := "reread" }

/-- A stored document for the book "Dune". -/
def duneDoc : Doc :=
  [("Title", "Dune"), ("Author", "Frank Herbert"), ("Purchased", "web"),
   ("Read", "Yes"), ("Rating", "⭐⭐⭐⭐"), ("Notes", "old")]

/-- A second stored document. -/
def emmaDoc : Doc :=
  [("Title", "Emma"), ("Author", "Jane Austen"), ("Purchased", "shop"),
   ("Read", "No"), ("Rating", "⭐⭐⭐"), ("Notes", "")]

/-- A row whose title is "abc", used against the pattern "a.c". -/
def abcRow : Doc :=
  [("Title", "abc"), ("Author", ""), ("Purchased", ""),
   ("Read", "No"), ("Rating", "⭐"), ("Notes", "")]

/-- A row with author "Bob Smith". -/
def bobRow : Doc :=
  [("Title", "The Hobbit"), ("Author", "Bob Smith"), ("Purchased", "shop"),
   ("Read", "Yes"), ("Rating", "⭐⭐"), ("Notes", "fun")]

/-- A concrete update set touching only the notes. -/
def notesUpd : Doc := [("Notes", "reread")]

/-! Theorems. -/

/-- Counting star glyphs in a string of `n` star glyphs yields `n`, for any
`n`. -/
theorem countGlyphs_toGlyphString (n : Nat) : countGlyphs (toGlyphString n) = n := by
  simp [countGlyphs, toGlyphString]

/-- C1: the rating conversion round-trips exactly: for every integer `n` in
`[1,5]`, rendering `n` as a string of `n` star glyphs (as `new_book` and
`updated_data` do) and recovering the integer by counting star glyphs (as
`current_rating` does) yields `n` again. -/
theorem rating_round_trip (n : Nat) (h1 : 1 ≤ n) (h2 : n ≤ 5) :
    countGlyphs (toGlyphString n) = n :=
  countGlyphs_toGlyphString n

/-- Witness for C1 at `n = 4`. -/
theorem rating_round_trip_witness : countGlyphs (toGlyphString 4) = 4 :=
  rating_round_trip 4 (by decide) (by decide)

/-- C5: filtering with the empty search term is the identity on the record
set: `display_df df ""` takes the `else` branch and returns `df`
unchanged. -/
theorem display_df_empty_term (df : List Doc) : display_df df "" = df := by
  simp [display_df]

/-- C2 (counterexample): a whitespace-only, non-empty title (a single
space) is accepted by the submit handler: the outcome is success and the
document is inserted, so the claim that whitespace-only titles are rejected
with a validation error and no insert is false on this input. -/
theorem whitespace_title_accepted :
    wsForm.title.data.all Char.isWhitespace = true ∧
    book_form_submit [] 0 wsForm
      = ([⟨0, new_book wsForm⟩], AddOutcome.success) :=
  ⟨by decide, by decide⟩

/-- C2 (amended): the submit handler rejects exactly the empty-string
title: with an empty title it reports a validation error and leaves the
collection unchanged, and with any non-empty title (including
whitespace-only ones) it inserts exactly the one document derived from the
form fields. -/
theorem book_form_submit_spec (coll : List StoredDoc) (nid : Nat) (f : NewBookForm) :
    (f.title = "" →
        book_form_submit coll nid f = (coll, AddOutcome.validationError)) ∧
    (f.title ≠ "" →
        book_form_submit coll nid f
          = (coll ++ [⟨nid, new_book f⟩], AddOutcome.success)) := by
  constructor <;> intro h <;> simp [book_form_submit, save_book, h]

/-- Witness for C2 (amended) at a concrete form. -/
theorem book_form_submit_spec_witness :
    book_form_submit [] 0 duneForm
      = ([] ++ [⟨0, new_book duneForm⟩], AddOutcome.success) :=
  (book_form_submit_spec [] 0 duneForm).2 (by decide)

/-- C3 (counterexample): with `MONGO_URI` absent from both the secret store
and the environment, the program resolves the connection string to the
default local address instead of refusing with a configuration error. -/
theorem missing_uri_falls_back_to_localhost :
    get_database_uri [] [] = "mongodb://localhost:27017" := rfl

/-- C3 (amended): whenever `MONGO_URI` is absent from both the secret store
and the environment, `get_database` silently falls back to the default
local connection string `mongodb://localhost:27017`; no configuration error
path exists. -/
theorem get_database_uri_default (secrets env : Doc)
    (hs : lookupField secrets "MONGO_URI" = none)
    (he : lookupField env "MONGO_URI" = none) :
    get_database_uri secrets env = "mongodb://localhost:27017" := by
  simp [get_database_uri, hs, he]

/-- Witness for C3 (amended) at empty secret store and environment. -/
theorem get_database_uri_default_witness :
    get_database_uri [] [] = "mongodb://localhost:27017" :=
  get_database_uri_default [] [] rfl rfl

/-- A delete against a collection with no matching title is the identity. -/
theorem delete_book_no_match (coll : List StoredDoc) (title : String)
    (h : ∀ d ∈ coll, lookupField d.fields "Title" ≠ some title) :
    delete_book coll title = coll := by
  induction coll with
  | nil => rfl
  | cons d ds ih =>
    have hd : (lookupField d.fields "Title" == some title) = false :=
      beq_eq_false_iff_ne.mpr (h d (List.mem_cons_self d ds))
    simp only [delete_book, hd, Bool.false_eq_true, if_false, List.cons.injEq,
      true_and]
    exact ih (fun e he => h e (List.mem_cons_of_mem d he))

/-- A delete removes exactly the first matching document. -/
theorem delete_book_first_match (pre : List StoredDoc) (d : StoredDoc)
    (post : List StoredDoc) (title : String)
    (hpre : ∀ e ∈ pre, lookupField e.fields "Title" ≠ some title)
    (hd : lookupField d.fields "Title" = some title) :
    delete_book (pre ++ d :: post) title = pre ++ post := by
  induction pre with
  | nil =>
    have : (lookupField d.fields "Title" == some title) = true := beq_iff_eq.mpr hd
    simp [delete_book, this]
  | cons e pre ih =>
    have he : (lookupField e.fields "Title" == some title) = false :=
      beq_eq_false_iff_ne.mpr (hpre e (List.mem_cons_self e pre))
    simp only [List.cons_append, delete_book, he, Bool.false_eq_true, if_false,
      List.cons.injEq, true_and]
    exact ih (fun x hx => hpre x (List.mem_cons_of_mem e hx))

/-- Deletion never removes more than one document and never adds one. -/
theorem delete_book_length (coll : List StoredDoc) (title : String) :
    coll.length ≤ (delete_book coll title).length + 1 ∧
    (delete_book coll title).length ≤ coll.length := by
  induction coll with
  | nil => simp [delete_book]
  | cons d ds ih =>
    by_cases h : (lookupField d.fields "Title" == some title) = true
    · simp only [delete_book, h, if_true, List.length_cons]
      exact ⟨Nat.le_refl _, Nat.le_succ _⟩
    · simp only [delete_book, h, if_false, List.length_cons]
      exact ⟨Nat.succ_le_succ ih.1, Nat.succ_le_succ ih.2⟩

/-- C9: `delete_book` removes at most one document whose `Title` matches
the given string exactly: with no matching document it is a silent no-op
(the collection, hence its size, is unchanged), with a first matching
document exactly that one document is removed, and in every case the size
shrinks by at most one and never grows. -/
theorem delete_book_spec (coll : List StoredDoc) (title : String) :
    ((∀ d ∈ coll, lookupField d.fields "Title" ≠ some title) →
        delete_book coll title = coll) ∧
    (∀ pre d post, coll = pre ++ d :: post →
        (∀ e ∈ pre, lookupField e.fields "Title" ≠ some title) →
        lookupField d.fields "Title" = some title →
        delete_book coll title = pre ++ post) ∧
    coll.length ≤ (delete_book coll title).length + 1 ∧
    (delete_book coll title).length ≤ coll.length := by
  refine ⟨fun h => delete_book_no_match coll title h, ?_, delete_book_length coll title⟩
  rintro pre d post rfl hpre hd
  exact delete_book_first_match pre d post title hpre hd

/-- Witness for C9: deleting an absent title from a concrete collection is
a no-op. -/
theorem delete_book_spec_witness :
    delete_book [⟨1, duneDoc⟩] "NoSuchBook" = [⟨1, duneDoc⟩] :=
  (delete_book_spec [⟨1, duneDoc⟩] "NoSuchBook").1 (by decide)

/-- Setting a field makes it hold the new value. -/
theorem lookup_setField_self (d : Doc) (k v : String) :
    lookupField (setField d k v) k = some v := by
  induction d with
  | nil => simp [setField, lookupField, List.find?]
  | cons hd tl ih =>
    obtain ⟨k0, v0⟩ := hd
    by_cases h : (k0 == k) = true
    · simp [setField, h, lookupField, List.find?]
    · have hb : (k0 == k) = false := by simpa using h
      simp only [setField, hb, Bool.false_eq_true, if_false]
      have step : lookupField ((k0, v0) :: setField tl k v) k
          = lookupField (setField tl k v) k := by
        simp [lookupField, List.find?_cons_of_neg, h]
      rw [step]; exact ih

/-- Setting a field leaves every other field unchanged. -/
theorem lookup_setField_ne (d : Doc) (k v k' : String) (h : k' ≠ k) :
    lookupField (setField d k v) k' = lookupField d k' := by
  induction d with
  | nil =>
    simp [setField, lookupField, List.find?, beq_eq_false_iff_ne.mpr (Ne.symm h)]
  | cons hd tl ih =>
    obtain ⟨k0, v0⟩ := hd
    by_cases h0 : (k0 == k) = true
    · have hk0 : k0 = k := beq_iff_eq.mp h0
      subst hk0
      simp [setField, lookupField, List.find?_cons_of_neg,
        beq_eq_false_iff_ne.mpr (Ne.symm h)]
    · have hb0 : (k0 == k) = false := by simpa using h0
      simp only [setField, hb0, Bool.false_eq_true, if_false]
      by_cases h1 : (k0 == k') = true
      · simp [lookupField, List.find?_cons_of_pos, h1]
      · have step : lookupField ((k0, v0) :: setField tl k v) k'
            = lookupField (setField tl k v) k' := by
          simp [lookupField, List.find?_cons_of_neg, h1]
        have step' : lookupField ((k0, v0) :: tl) k' = lookupField tl k' := by
          simp [lookupField, List.find?_cons_of_neg, h1]
        rw [step, step', ih]

/-- A `$set` merge leaves every field outside the update set unchanged. -/
theorem lookup_applySet_not_mem (upd : Doc) (k : String)
    (h : k ∉ upd.map Prod.fst) (d : Doc) :
    lookupField (applySet d upd) k = lookupField d k := by
  induction upd generalizing d with
  | nil => rfl
  | cons p rest ih =>
    simp only [List.map_cons, List.mem_cons, not_or] at h
    have step : applySet d (p :: rest) = applySet (setField d p.1 p.2) rest := rfl
    rw [step, ih h.2, lookup_setField_ne _ _ _ _ h.1]

/-- An update against a collection with no matching title is the identity. -/
theorem update_book_no_match (coll : List StoredDoc) (title : String) (upd : Doc)
    (h : ∀ d ∈ coll, lookupField d.fields "Title" ≠ some title) :
    update_book coll title upd = coll := by
  induction coll with
  | nil => rfl
  | cons d ds ih =>
    have hd : (lookupField d.fields "Title" == some title) = false :=
      beq_eq_false_iff_ne.mpr (h d (List.mem_cons_self d ds))
    simp only [update_book, hd, Bool.false_eq_true, if_false, List.cons.injEq,
      true_and]
    exact ih (fun e he => h e (List.mem_cons_of_mem d he))

/-- An update rewrites exactly the first matching document, leaving every
other document untouched. -/
theorem update_book_first_match (pre : List StoredDoc) (d : StoredDoc)
    (post : List StoredDoc) (title : String) (upd : Doc)
    (hpre : ∀ e ∈ pre, lookupField e.fields "Title" ≠ some title)
    (hd : lookupField d.fields "Title" = some title) :
    update_book (pre ++ d :: post) title upd
      = pre ++ { d with fields := applySet d.fields upd } :: post := by
  induction pre with
  | nil =>
    have : (lookupField d.fields "Title" == some title) = true := beq_iff_eq.mpr hd
    simp [update_book, this]
  | cons e pre ih =>
    have he : (lookupField e.fields "Title" == some title) = false :=
      beq_eq_false_iff_ne.mpr (hpre e (List.mem_cons_self e pre))
    simp only [List.cons_append, update_book, he, Bool.false_eq_true, if_false,
      List.cons.injEq, true_and]
    exact ih (fun x hx => hpre x (List.mem_cons_of_mem e hx))

/-- C8: `update_book` applies a partial field merge to at most one document
matching the given title: with no match it is a no-op, otherwise exactly
the first matching document receives the `$set` merge while all other
documents are untouched; fields outside the update set keep their values on
the merged document, and `Title` is never among the fields the edit panel
mutates. -/
theorem update_book_spec (coll : List StoredDoc) (title : String) (upd : Doc) :
    ((∀ d ∈ coll, lookupField d.fields "Title" ≠ some title) →
        update_book coll title upd = coll) ∧
    (∀ pre d post, coll = pre ++ d :: post →
        (∀ e ∈ pre, lookupField e.fields "Title" ≠ some title) →
        lookupField d.fields "Title" = some title →
        update_book coll title upd
          = pre ++ { d with fields := applySet d.fields upd } :: post) ∧
    (∀ k, k ∉ upd.map Prod.fst →
        ∀ dd : Doc, lookupField (applySet dd upd) k = lookupField dd k) ∧
    (∀ g : EditForm, "Title" ∉ (updated_data g).map Prod.fst) := by
  refine ⟨fun h => update_book_no_match coll title upd h, ?_, ?_, ?_⟩
  · rintro pre d post rfl hpre hd
    exact update_book_first_match pre d post title upd hpre hd
  · exact fun k hk dd => lookup_applySet_not_mem upd k hk dd
  · intro g; simp [updated_data]

/-- Witness for C8: updating the notes of "Dune" in a concrete two-document
collection rewrites exactly the first document. -/
theorem update_book_spec_witness :
    update_book [⟨1, duneDoc⟩, ⟨2, emmaDoc⟩] "Dune" notesUpd
      = [] ++ { oid := 1, fields := applySet duneDoc notesUpd } :: [⟨2, emmaDoc⟩] :=
  (update_book_spec [⟨1, duneDoc⟩, ⟨2, emmaDoc⟩] "Dune" notesUpd).2.1
    [] ⟨1, duneDoc⟩ [⟨2, emmaDoc⟩] rfl (by simp) (by decide)

/-- Folding the keys of a document whose key list is exactly `bookFields`
into an accumulator that already holds `bookFields` changes nothing. -/
theorem foldl_insertKey_bookFields :
    List.foldl insertKey bookFields bookFields = bookFields := by decide

/-- Column inference over a non-empty list of documents that all carry
exactly the canonical key list yields the canonical columns. -/
theorem columnsOf_uniform (data : List Doc)
    (h : ∀ d ∈ data, d.map Prod.fst = bookFields) (hne : data ≠ []) :
    columnsOf data = bookFields := by
  have aux : ∀ l : List Doc, (∀ d ∈ l, d.map Prod.fst = bookFields) →
      List.foldl (fun acc d => (d.map Prod.fst).foldl insertKey acc) bookFields l
        = bookFields := by
    intro l
    induction l with
    | nil => intro _; rfl
    | cons d rest ih =>
      intro hl
      have hd : d.map Prod.fst = bookFields := hl d (List.mem_cons_self _ _)
      have hstep : List.foldl insertKey bookFields (d.map Prod.fst) = bookFields := by
        rw [hd]; exact foldl_insertKey_bookFields
      simp only [List.foldl_cons, hstep]
      exact ih (fun e he => hl e (List.mem_cons_of_mem _ he))
  match data, hne with
  | d0 :: rest, _ =>
    have h0 : d0.map Prod.fst = bookFields := h d0 (List.mem_cons_self _ _)
    have hstart : List.foldl insertKey [] (d0.map Prod.fst) = bookFields := by
      rw [h0]; decide
    simp only [columnsOf, List.foldl_cons, hstart]
    exact aux rest (fun e he => h e (List.mem_cons_of_mem _ he))

/-- C7: `load_data` on an empty collection returns zero rows but the
canonical column set; on a non-empty collection it returns every document
with the internal `_id` excluded, and (when the documents carry the
canonical fields, as every document the app writes does) the field names
are preserved as the columns. -/
theorem load_data_spec :
    load_data [] = { columns := bookFields, rows := [] } ∧
    (∀ coll : List StoredDoc, coll ≠ [] →
        (load_data coll).rows = coll.map (fun d => d.fields)) ∧
    (∀ coll : List StoredDoc, coll ≠ [] →
        (∀ d ∈ coll, d.fields.map Prod.fst = bookFields) →
        (load_data coll).columns = bookFields) := by
  refine ⟨rfl, ?_, ?_⟩
  · intro coll hne
    cases coll with
    | nil => exact absurd rfl hne
    | cons c cs => simp [load_data]
  · intro coll hne h
    cases coll with
    | nil => exact absurd rfl hne
    | cons c cs =>
      have hu : ∀ e ∈ (c :: cs).map (fun d => d.fields),
          e.map Prod.fst = bookFields := by
        intro e he
        obtain ⟨d, hd, rfl⟩ := List.mem_map.mp he
        exact h d hd
      simp only [load_data, List.map_cons, List.isEmpty_cons, if_false]
      exact columnsOf_uniform _ (by simpa using hu) (by simp)

/-- Witness for C7: loading a one-document collection yields that document
as the single row. -/
theorem load_data_spec_witness :
    (load_data [⟨1, duneDoc⟩]).rows = [duneDoc] :=
  load_data_spec.2.1 [⟨1, duneDoc⟩] (by decide)

/-- The glyph string for `n` has length `n` and consists only of star
glyphs. -/
theorem toGlyphString_shape (n : Nat) :
    (toGlyphString n).length = n ∧
    (toGlyphString n).data.all (fun c => c == starChar) = true := by
  constructor
  · simp [toGlyphString, String.length]
  · simp only [toGlyphString, List.all_eq_true]
    intro c hc
    have : c = starChar := (List.eq_of_mem_replicate hc)
    simp [this]

/-- C10: every document written through the app's own add or update paths
has its `Read` field equal to `"Yes"` or `"No"` and its `Rating` field
equal to a star-glyph string of length between 1 and 5; the rating slider
only offers the integers 1..5, which the hypotheses record. -/
theorem written_docs_wellformed (f : NewBookForm) (g : EditForm) (d : Doc)
    (hf1 : 1 ≤ f.rating) (hf2 : f.rating ≤ 5)
    (hg1 : 1 ≤ g.rating) (hg2 : g.rating ≤ 5) :
    (lookupField (new_book f) "Read" = some "Yes" ∨
        lookupField (new_book f) "Read" = some "No") ∧
    (∃ n, 1 ≤ n ∧ n ≤ 5 ∧
        lookupField (new_book f) "Rating" = some (toGlyphString n)) ∧
    (lookupField (applySet d (updated_data g)) "Read" = some "Yes" ∨
        lookupField (applySet d (updated_data g)) "Read" = some "No") ∧
    (∃ n, 1 ≤ n ∧ n ≤ 5 ∧
        lookupField (applySet d (updated_data g)) "Rating" = some (toGlyphString n)) ∧
    (∀ n : Nat, (toGlyphString n).length = n ∧
        (toGlyphString n).data.all (fun c => c == starChar) = true) := by
  have hchain : applySet d (updated_data g)
      = setField (setField (setField (setField (setField d
          "Author" g.author) "Purchased" g.purchased)
          "Read" (if g.read then "Yes" else "No"))
          "Rating" (toGlyphString g.rating)) "Notes" g.notes := rfl
  have hread : lookupField (new_book f) "Read"
      = some (if f.read then "Yes" else "No") := rfl
  have hrating : lookupField (new_book f) "Rating"
      = some (toGlyphString f.rating) := rfl
  have hread' : lookupField (applySet d (updated_data g)) "Read"
      = some (if g.read then "Yes" else "No") := by
    rw [hchain, lookup_setField_ne _ _ _ _ (by decide),
      lookup_setField_ne _ _ _ _ (by decide), lookup_setField_self]
  have hrating' : lookupField (applySet d (updated_data g)) "Rating"
      = some (toGlyphString g.rating) := by
    rw [hchain, lookup_setField_ne _ _ _ _ (by decide), lookup_setField_self]
  refine ⟨?_, ⟨f.rating, hf1, hf2, hrating⟩, ?_,
    ⟨g.rating, hg1, hg2, hrating'⟩, toGlyphString_shape⟩
  · cases hb : f.read
    · right; rw [hread, hb]; rfl
    · left; rw [hread, hb]; rfl
  · cases hb : g.read
    · right; rw [hread', hb]; rfl
    · left; rw [hread', hb]; rfl

/-- Witness for C10 at concrete forms and a concrete prior document. -/
theorem written_docs_wellformed_witness :
    (lookupField (new_book duneForm) "Read" = some "Yes" ∨
        lookupField (new_book duneForm) "Read" = some "No") ∧
    (∃ n, 1 ≤ n ∧ n ≤ 5 ∧
        lookupField (new_book duneForm) "Rating" = some (toGlyphString n)) ∧
    (lookupField (applySet emmaDoc (updated_data rereadForm)) "Read" = some "Yes" ∨
        lookupField (applySet emmaDoc (updated_data rereadForm)) "Read" = some "No") ∧
    (∃ n, 1 ≤ n ∧ n ≤ 5 ∧
        lookupField (applySet emmaDoc (updated_data rereadForm)) "Rating"
          = some (toGlyphString n)) ∧
    (∀ n : Nat, (toGlyphString n).length = n ∧
        (toGlyphString n).data.all (fun c => c == starChar) = true) :=
  written_docs_wellformed duneForm rereadForm emmaDoc
    (by decide) (by decide) (by decide) (by decide)


/-- C6: the filter is case-insensitive in the search term: both branches of
`display_df` depend on the term only through its lowercased form, so two
terms with the same lowercasing yield identical result sets. -/
theorem filter_term_case_insensitive (df : List Doc) (t1 t2 : String)
    (h : pyLower t1 = pyLower t2) : display_df df t1 = display_df df t2 := by
  have hmask : mask t1 = mask t2 := by
    funext row; simp only [mask, h]
  have hlen : t1.data.length = t2.data.length := by
    have h2 := congrArg (fun s => s.data.length) h
    simpa [pyLower] using h2
  by_cases h1 : t1 = ""
  · have h2 : t2 = "" := by
      subst h1
      have hnil : t2.data = [] :=
        List.eq_nil_of_length_eq_zero (by simpa using hlen.symm)
      cases t2
      simp_all
    rw [h1, h2]
  · have h2 : t2 ≠ "" := by
      intro he
      apply h1
      subst he
      have hnil : t1.data = [] :=
        List.eq_nil_of_length_eq_zero (by simpa using hlen)
      cases t1
      simp_all
    simp only [display_df, ne_eq, h1, h2, not_false_iff, if_true, hmask]

/-- Witness for C6 at the terms "smith" and "SMITH" on a concrete row. -/
theorem filter_term_case_insensitive_witness :
    display_df [bobRow] "smith" = display_df [bobRow] "SMITH" :=
  filter_term_case_insensitive [bobRow] "smith" "SMITH" (by decide)

/-- On patterns made of literal tokens only, anchored matching is prefix
testing. -/
theorem matchHere_lit (cs : List Char) : ∀ hay : List Char,
    matchHere (cs.map RTok.lit) hay = cs.isPrefixOf hay := by
  induction cs with
  | nil => intro hay; cases hay <;> rfl
  | cons c cs ih =>
    intro hay
    cases hay with
    | nil => rfl
    | cons d hs =>
      show (c == d && matchHere (cs.map RTok.lit) hs)
          = (c == d && cs.isPrefixOf hs)
      rw [ih]

/-- On patterns made of literal tokens only, regex search is literal
substring containment. -/
theorem reSearch_lit (cs : List Char) : ∀ hay : List Char,
    reSearch (cs.map RTok.lit) hay = specLiteralContains cs hay := by
  intro hay
  induction hay with
  | nil => cases cs <;> rfl
  | cons d hs ih =>
    show (matchHere (cs.map RTok.lit) (d :: hs) || reSearch (cs.map RTok.lit) hs)
        = (cs.isPrefixOf (d :: hs) || specLiteralContains cs hs)
    rw [matchHere_lit, ih]

/-- Compiling a metacharacter-free list of characters yields literal tokens
only. -/
theorem tokenizeL_no_meta (l : List Char)
    (h : l.all (fun c => !(metachars.contains c)) = true) :
    l.map (fun c => if c = '.' then RTok.dot else RTok.lit c) = l.map RTok.lit := by
  induction l with
  | nil => rfl
  | cons c cs ih =>
    simp only [List.all_cons, Bool.and_eq_true] at h
    have hc : ¬(c = '.') := by
      intro he
      subst he
      exact absurd h.1 (by decide)
    simp only [List.map_cons, if_neg hc]
    rw [ih h.2]

/-- Compiling a metacharacter-free pattern yields literal tokens only. -/
theorem tokenize_no_meta (pat : String) (h : noMetachars pat = true) :
    tokenize pat = pat.data.map RTok.lit :=
  tokenizeL_no_meta pat.data h

/-- On a metacharacter-free pattern, pandas `str.contains` is literal
substring containment. -/
theorem strContainsPat_lit (v pat : String) (h : noMetachars pat = true) :
    strContainsPat v pat = specLiteralContains pat.data v.data := by
  unfold strContainsPat
  rw [tokenize_no_meta pat h, reSearch_lit]

/-- C4 (counterexample): with the search term "a.c" the filter keeps the
row titled "abc" (pandas `str.contains` interprets the term as a regular
expression, whose `'.'` matches the `'b'`), yet no field of that row
contains "a.c" as a literal substring — so the claim that a record is kept
iff some field contains the term as a literal substring is false. -/
theorem filter_literal_substring_counterexample :
    display_df [abcRow] "a.c" = [abcRow] ∧
    abcRow.all
      (fun p => !(specLiteralContains (pyLower "a.c").data (pyLower p.2).data))
      = true :=
  ⟨by decide, by decide⟩

/-- C4 (amended): the filter keeps a record iff the lowercased string form
of at least one of its fields matches the lowercased search term as a
regular expression; for a non-empty term whose lowercased form uses no
regex metacharacter this coincides with literal substring containment. -/
theorem filter_matches_iff_literal (df : List Doc) (row : Doc) (term : String)
    (hne : term ≠ "") (hmeta : noMetachars (pyLower term) = true) :
    (row ∈ display_df df term ↔
      row ∈ df ∧ ∃ p ∈ row,
        specLiteralContains (pyLower term).data (pyLower p.2).data = true) := by
  have hkey : ∀ v : String, strContainsPat v (pyLower term)
      = specLiteralContains (pyLower term).data v.data :=
    fun v => strContainsPat_lit v (pyLower term) hmeta
  simp only [display_df, ne_eq, hne, not_false_iff, if_true]
  rw [List.mem_filter]
  simp only [mask, List.any_eq_true, hkey]

/-- Witness for C4 (amended) at the term "bob" on a concrete row. -/
theorem filter_matches_iff_literal_witness :
    bobRow ∈ display_df [bobRow] "bob" ↔
      bobRow ∈ [bobRow] ∧ ∃ p ∈ bobRow,
        specLiteralContains (pyLower "bob").data (pyLower p.2).data = true :=
  filter_matches_iff_literal [bobRow] bobRow "bob" (by decide) (by decide)
